import Mathlib

/-!
Verification development for the `zenfin` returns-analytics library
(`src/zenfin/stats.py`).

Modelling conventions:
* A return series (one column of a pandas Series/DataFrame, assumed free of
  NaN entries) is a `List ℝ` in chronological order.
* Multi-column functions in the source iterate the same computation over each
  column independently; we model the per-column computation.
* Real-number arithmetic replaces IEEE floats.  Where a claim is specifically
  about IEEE non-finite results (division by zero, square root of a negative,
  inverse normal CDF outside its domain) we use the type `Zenfin.F`, a real
  number extended with `inf`, `neginf` and `nan`, and arithmetic on it that
  follows IEEE-754 on those edge cases.
* `utils.py` is not part of the sources; the pieces the claims need
  (`utils.to_excess_returns`) are modelled from the specification, and
  `utils.clean` is taken to be the identity on NaN-free input.
-/

namespace Zenfin

/-- Arithmetic mean of a list, `xs.sum / len(xs)` (pandas `Series.mean`
without its NaN handling; division by a zero length follows Lean's junk-value
convention). -/
noncomputable def mean (xs : List ℝ) : ℝ := xs.sum / xs.length

/-- Sum of squared deviations from the mean, the common numerator of the
sample variance and of Pearson correlation denominators. -/
noncomputable def sqDev (xs : List ℝ) : ℝ := (xs.map (fun x => (x - mean xs) ^ 2)).sum

/-- Sample standard deviation with the `n - 1` denominator (`ddof=1`, the
pandas default used throughout `stats.py`). -/
noncomputable def stdR (xs : List ℝ) : ℝ := Real.sqrt (sqDev xs / ((xs.length : ℝ) - 1))

/-- Sample covariance with the `n - 1` denominator, as produced by
`DataFrame.cov()` on two aligned columns. -/
noncomputable def sampleCov (a b : List ℝ) : ℝ :=
  (List.zipWith (fun x y => (x - mean a) * (y - mean b)) a b).sum / ((a.length : ℝ) - 1)

/-- Pearson correlation coefficient of two aligned columns, as computed by
`np.corrcoef(a, b)[0, 1]` and by `scipy.stats.linregress`'s `rvalue`. -/
noncomputable def pearson (a b : List ℝ) : ℝ :=
  (List.zipWith (fun x y => (x - mean a) * (y - mean b)) a b).sum /
    (Real.sqrt (sqDev a) * Real.sqrt (sqDev b))

/-- An IEEE-754-style scalar: a finite real, one of the two infinities, or
NaN ("missing").  Used to model the edge cases of numpy/scipy arithmetic that
the error-handling claims are about. -/
inductive F where
  | fin : ℝ → F
  | inf : F
  | neginf : F
  | nan : F

/-- Pick `pos` for a positive real, `neg` for a negative one, and NaN at zero:
the sign analysis IEEE-754 applies when combining a finite value with an
infinity or a zero denominator. -/
noncomputable def sgnCase (b : ℝ) (pos neg : F) : F :=
  if 0 < b then pos else if b < 0 then neg else F.nan

/-- IEEE-754 multiplication on `F` (real zero carries no sign, so
`0 * inf = nan` as for IEEE `+0 * inf`). -/
noncomputable def fmul : F → F → F
  | F.fin a, F.fin b => F.fin (a * b)
  | F.fin a, F.inf => sgnCase a F.inf F.neginf
  | F.fin a, F.neginf => sgnCase a F.neginf F.inf
  | F.inf, F.fin b => sgnCase b F.inf F.neginf
  | F.neginf, F.fin b => sgnCase b F.neginf F.inf
  | F.inf, F.inf => F.inf
  | F.inf, F.neginf => F.neginf
  | F.neginf, F.inf => F.neginf
  | F.neginf, F.neginf => F.inf
  | _, _ => F.nan

/-- IEEE-754 division on `F`: a nonzero finite number divided by zero gives a
signed infinity, `0 / 0` gives NaN, and NaN propagates. -/
noncomputable def fdiv : F → F → F
  | F.fin a, F.fin b => if b = 0 then sgnCase a F.inf F.neginf else F.fin (a / b)
  | F.fin _, F.inf => F.fin 0
  | F.fin _, F.neginf => F.fin 0
  | F.inf, F.fin b => if 0 ≤ b then F.inf else F.neginf
  | F.neginf, F.fin b => if 0 ≤ b then F.neginf else F.inf
  | _, _ => F.nan

/-- `np.sqrt` on a possibly-negative argument: NaN below zero. -/
noncomputable def npSqrt (p : ℝ) : F := if p < 0 then F.nan else F.fin (Real.sqrt p)

/-- pandas `Series.mean()`: NaN on an empty series. -/
noncomputable def meanF (xs : List ℝ) : F :=
  if xs.length = 0 then F.nan else F.fin (mean xs)

/-- pandas `Series.std(ddof=1)`: NaN with fewer than 2 observations. -/
noncomputable def stdF (xs : List ℝ) : F :=
  if xs.length < 2 then F.nan else F.fin (stdR xs)

/-- Modelled from the spec: the de-annualization `utils.to_excess_returns`
applies to an annualized risk-free rate before subtracting it
(`(1 + rf) ** (1 / periods) - 1`); `utils.py` is not under `src/`. -/
noncomputable def deannualize (rf periods : ℝ) : ℝ :=
  (1 + rf) ^ ((1 : ℝ) / periods) - 1

/-- Modelled from the spec: `utils.to_excess_returns(returns, rf, periods)`
(not under `src/`) subtracts the de-annualized scalar risk-free rate from
every periodic return. -/
noncomputable def to_excess_returns (returns : List ℝ) (rf periods : ℝ) : List ℝ :=
  returns.map (fun r => r - deannualize rf periods)

/-- `total_return` (stats.py line 9): `returns.add(1).prod() - 1`. -/
noncomputable def total_return (returns : List ℝ) : ℝ :=
  (returns.map (fun r => r + 1)).prod - 1

/-- `cagr` (stats.py line 27): compounded (or summed) total return, raised to
`1.0 / years` after taking the absolute value, with
`years = (returns.count() - 1) / periods`.  The exponentiation is real-valued
(`Real.rpow`). -/
noncomputable def cagr (returns : List ℝ) (compounded : Bool) (periods : ℝ) : ℝ :=
  let total := if compounded then total_return returns else returns.sum
  let years := ((returns.length : ℝ) - 1) / periods
  |total + 1| ^ ((1 : ℝ) / years) - 1

/-- Modelled from the spec: the cumulative curve underlying
`utils.to_drawdown_series` (not under `src/`), the running product of
`1 + r` minus 1 up to and including index `j`. -/
noncomputable def cumCurve (xs : List ℝ) (j : ℕ) : ℝ :=
  ((xs.take (j + 1)).map (fun r => 1 + r)).prod - 1

/-- Modelled from the spec: the causal running peak, the maximum cumulative
curve value seen up to and including index `i`. -/
noncomputable def runPeak (xs : List ℝ) (i : ℕ) : ℝ :=
  ((List.range (i + 1)).map (cumCurve xs)).foldr max (cumCurve xs 0)

/-- Modelled from the spec: `utils.to_drawdown_series` (not under `src/`):
per timestamp, `curve / running_peak - 1`, or 0 when the running peak is not
positive. -/
noncomputable def to_drawdown_series (xs : List ℝ) : List ℝ :=
  (List.range xs.length).map (fun i =>
    if runPeak xs i ≤ 0 then 0 else cumCurve xs i / runPeak xs i - 1)

/-- `max_drawdown` (stats.py line 222): the minimum of the drawdown series
(folded against 0, the value every drawdown series starts below or at). -/
noncomputable def max_drawdown (returns : List ℝ) : ℝ :=
  (to_drawdown_series returns).foldr min 0

/-- `calmar` (stats.py line 147): `cagr(returns) / abs(max_drawdown(returns))`
with the `cagr` defaults (`compounded = true`, `periods = 252`).  `F`-valued
to capture the IEEE result when the drawdown is zero. -/
noncomputable def calmar (returns : List ℝ) : F :=
  fdiv (F.fin (cagr returns true 252)) (F.fin |max_drawdown returns|)

/-- `volatility` (stats.py line 40): `returns.std()`, times `np.sqrt(periods)`
when annualized.  `F`-valued so that a negative `periods` yields NaN exactly as
`np.sqrt` does. -/
noncomputable def volatility (returns : List ℝ) (periods : ℝ) (annualize : Bool) : F :=
  if annualize then fmul (stdF returns) (npSqrt periods) else stdF returns

/-- `autocorr_penalty` (stats.py line 62), per column: the absolute value of
the lag-1 Pearson autocorrelation (`np.corrcoef(x[:-1], x[1:])[0, 1]`), folded
into `sqrt(1 + 2 * sum(((n - k) / n) * coef ** k for k in 1..n-1))`. -/
noncomputable def autocorr_penalty (returns : List ℝ) : ℝ :=
  let n := returns.length
  let coef := |pearson (returns.take (n - 1)) (returns.drop 1)|
  Real.sqrt (1 + 2 *
    ((List.range' 1 (n - 1)).map
      (fun k : ℕ => (((n : ℝ) - (k : ℝ)) / (n : ℝ)) * coef ^ k)).sum)

/-- `sharpe` (stats.py line 73): mean of excess returns over their sample
standard deviation (optionally multiplied by the autocorrelation penalty),
times `np.sqrt(periods)` when annualized.  `F`-valued to capture the IEEE
result when the divisor is zero. -/
noncomputable def sharpe (returns : List ℝ) (rf periods : ℝ) (annualize smart : Bool) : F :=
  let E := to_excess_returns returns rf periods
  let divisor := if smart then fmul (stdF E) (F.fin (autocorr_penalty returns)) else stdF E
  let res := fdiv (meanF E) divisor
  if annualize then fmul res (npSqrt periods) else res

/-- `sortino` (stats.py line 94): downside deviation is the square root of the
sum of squared strictly negative excess returns divided by `len(excess)` (the
full sample count), optionally multiplied by the autocorrelation penalty. -/
noncomputable def sortino (returns : List ℝ) (rf periods : ℝ) (annualize smart : Bool) : ℝ :=
  let E := to_excess_returns returns rf periods
  let d0 := Real.sqrt (((E.filter (fun e => decide (e < 0))).map (fun e => e ^ 2)).sum /
    (E.length : ℝ))
  let d := if smart then d0 * autocorr_penalty returns else d0
  let res := mean E / d
  if annualize then res * Real.sqrt periods else res

/-- `omega` (stats.py line 137): the sum of strictly positive excess returns
over the absolute value of the sum of strictly negative ones.  `F`-valued to
capture the IEEE result when the denominator is zero. -/
noncomputable def omega (returns : List ℝ) (required_returns periods : ℝ) : F :=
  let E := to_excess_returns returns required_returns periods
  fdiv (F.fin ((E.filter (fun e => decide (0 < e))).sum))
       (F.fin |(E.filter (fun e => decide (e < 0))).sum|)

/-- pandas `Series.rolling(W)` + a statistic `f`: position `i` holds the value
of `f` on the window of the `W` most recent observations ending at `i`
inclusive, and the leading positions with fewer than `W` observations
available hold the missing value. -/
noncomputable def rollingApply (W : ℕ) (f : List ℝ → ℝ) (xs : List ℝ) : List (Option ℝ) :=
  (List.range xs.length).map (fun i =>
    if W ≤ i + 1 then some (f ((xs.take (i + 1)).drop (i + 1 - W))) else none)

/-- `rolling_volatility` (stats.py line 47):
`returns.rolling(rolling_period).std() * np.sqrt(periods_per_year)`. -/
noncomputable def rolling_volatility (returns : List ℝ) (rolling_period : ℕ)
    (periods_per_year : ℝ) : List (Option ℝ) :=
  (rollingApply rolling_period stdR returns).map
    (Option.map (fun s => s * Real.sqrt periods_per_year))

/-- `rolling_sharpe` (stats.py line 87): the rolling mean of excess returns
divided elementwise by the rolling sample standard deviation of the raw
returns, times `np.sqrt(periods_per_year)` when annualized. -/
noncomputable def rolling_sharpe (returns : List ℝ) (rf : ℝ) (rolling_period : ℕ)
    (annualize : Bool) (periods_per_year : ℝ) : List (Option ℝ) :=
  let E := to_excess_returns returns rf periods_per_year
  let res := List.zipWith (fun a b => Option.bind a (fun m => Option.map (fun s => m / s) b))
    (rollingApply rolling_period mean E) (rollingApply rolling_period stdR returns)
  if annualize then res.map (Option.map (fun r => r * Real.sqrt periods_per_year)) else res

/-- The cumulative distribution function of the standard normal law. -/
noncomputable def stdNormCDF (x : ℝ) : ℝ :=
  ∫ t in Set.Iic x, Real.exp (-(t ^ 2) / 2) / Real.sqrt (2 * Real.pi)

/-- The standard normal quantile function, the left inverse of `stdNormCDF`. -/
noncomputable def stdNormInv (q : ℝ) : ℝ := Function.invFun stdNormCDF q

/-- `scipy.stats.norm.ppf(q, loc, scale)`: NaN for a non-positive scale or a
quantile outside `[0, 1]`, the signed infinities at the endpoints, and the
shifted-and-scaled standard normal quantile inside the open interval. -/
noncomputable def normPpf (q mu sigma : ℝ) : F :=
  if sigma ≤ 0 then F.nan
  else if q < 0 ∨ 1 < q then F.nan
  else if q = 0 then F.neginf
  else if q = 1 then F.inf
  else F.fin (mu + sigma * stdNormInv q)

/-- `value_at_risk` (stats.py line 256), per column:
`norm.ppf(1 - confidence, mean, std)` (the `sigma` argument of the Python
function is overwritten by the sample standard deviation before use). -/
noncomputable def value_at_risk (returns : List ℝ) (confidence : ℝ) : F :=
  match meanF returns, stdF returns with
  | F.fin mu, F.fin sigma => normPpf (1 - confidence) mu sigma
  | _, _ => F.nan

/-- `beta` (stats.py line 385), per column: the covariance of the column with
the benchmark (last column of the joint covariance matrix) over the variance
of the benchmark (its corner entry). -/
noncomputable def beta (returns benchmark : List ℝ) : ℝ :=
  sampleCov returns benchmark / sampleCov benchmark benchmark

/-- `alpha` (stats.py line 397), per column:
`(returns.mean() - beta * benchmark.mean()) * periods`. -/
noncomputable def alpha (returns benchmark : List ℝ) (periods : ℝ) : ℝ :=
  (mean returns - beta returns benchmark * mean benchmark) * periods

/-- `r_squared` (stats.py line 367), per column: the squared `rvalue` of
`scipy.stats.linregress`, i.e. the squared Pearson correlation. -/
noncomputable def r_squared (returns benchmark : List ℝ) : ℝ :=
  (pearson returns benchmark) ^ 2

/-- `win_rate` (stats.py line 184, no aggregation): the count of strictly
positive returns over the count of nonzero returns. -/
noncomputable def win_rate (returns : List ℝ) : ℝ :=
  ((returns.filter (fun x => decide (0 < x))).length : ℝ) /
    ((returns.filter (fun x => decide (x ≠ 0))).length : ℝ)

/-- `avg_win` (stats.py line 190, no aggregation): mean of the strictly
positive returns. -/
noncomputable def avg_win (returns : List ℝ) : ℝ :=
  mean (returns.filter (fun x => decide (0 < x)))

/-- `avg_loss` (stats.py line 199, no aggregation): mean of the strictly
negative returns. -/
noncomputable def avg_loss (returns : List ℝ) : ℝ :=
  mean (returns.filter (fun x => decide (x < 0)))

/-- `payoff_ratio` (stats.py line 302): `avg_win / abs(avg_loss)`. -/
noncomputable def payoff_ratio (returns : List ℝ) : ℝ :=
  avg_win returns / |avg_loss returns|

/-- `risk_of_ruin` (stats.py line 287):
`((1 - win_rate) / (1 + win_rate)) ** returns.count()`. -/
noncomputable def risk_of_ruin (returns : List ℝ) : ℝ :=
  ((1 - win_rate returns) / (1 + win_rate returns)) ^ returns.length

/-- `kelly_criterion` (stats.py line 355):
`(payoff_ratio * win_rate - (1 - win_rate)) / payoff_ratio`. -/
noncomputable def kelly_criterion (returns : List ℝ) : ℝ :=
  (payoff_ratio returns * win_rate returns - (1 - win_rate returns)) / payoff_ratio returns

/-- Claim C3: with at least 2 observations and `compounded = true`, `cagr`
returns `abs(total_compounded_return + 1) ^ (1 / years) - 1` where the total
compounded return is the product of `1 + r` minus 1 over the whole series and
`years = (n - 1) / periods`; the absolute value is applied before the
fractional power, so the result is the same real number even when the total
return is below `-1`. -/
theorem C3_cagr_formula (xs : List ℝ) (p : ℝ) (h : 2 ≤ xs.length) :
    cagr xs true p = |total_return xs + 1| ^ (p / ((xs.length : ℝ) - 1)) - 1 ∧
    total_return xs = (xs.map (fun r => r + 1)).prod - 1 := by
  refine ⟨?_, rfl⟩
  simp only [cagr, if_true]
  rw [one_div_div]

/-- Witness for C3 on the concrete series `[-3, 1/2]`, whose total compounded
return `-4` lies below `-1`. -/
theorem C3_cagr_formula_witness :
    2 ≤ ([(-3 : ℝ), 1/2]).length ∧
    (cagr [(-3 : ℝ), 1/2] true 252 =
      |total_return [(-3 : ℝ), 1/2] + 1| ^
        ((252 : ℝ) / ((([(-3 : ℝ), 1/2]).length : ℝ) - 1)) - 1 ∧
     total_return [(-3 : ℝ), 1/2] = ([(-3 : ℝ), 1/2].map (fun r => r + 1)).prod - 1) :=
  ⟨by simp, C3_cagr_formula [(-3 : ℝ), 1/2] 252 (by simp)⟩

/-- Refutation of claim C7: on a single-observation series the correction sum
of `autocorr_penalty` is empty and the function returns exactly `1`, the value
the claim says it must not report. -/
theorem C7_counterexample : autocorr_penalty [(1 : ℝ)/2] = 1 := by
  unfold autocorr_penalty
  norm_num [Real.sqrt_one]

/-- Claim C7 amended: with fewer than 2 observations `autocorr_penalty`
returns exactly `1` (the lag sum `range(1, n)` is empty), not a missing
value. -/
theorem C7_amended_small_sample (xs : List ℝ) (h : xs.length < 2) :
    autocorr_penalty xs = 1 := by
  have h0 : xs.length - 1 = 0 := by omega
  simp only [autocorr_penalty]
  rw [h0]
  norm_num [Real.sqrt_one]

/-- Witness for the amended C7 at the singleton series `[1/2]`. -/
theorem C7_amended_small_sample_witness :
    ([(1 : ℝ)/2]).length < 2 ∧ autocorr_penalty [(1 : ℝ)/2] = 1 :=
  ⟨by simp, C7_amended_small_sample [(1 : ℝ)/2] (by simp)⟩

/-- Claim C9: when the same non-degenerate series is used as both asset and
benchmark, `beta` is exactly 1, `alpha` is exactly 0, and `r_squared` is
exactly 1. -/
theorem C9_identical_series (xs : List ℝ) (p : ℝ) (h : sampleCov xs xs ≠ 0) :
    beta xs xs = 1 ∧ alpha xs xs p = 0 ∧ r_squared xs xs = 1 := by
  have hb : beta xs xs = 1 := div_self h
  have hzip : (List.zipWith (fun x y => (x - mean xs) * (y - mean xs)) xs xs).sum = sqDev xs := by
    rw [List.zipWith_same]
    simp only [sqDev, ← pow_two]
  refine ⟨hb, ?_, ?_⟩
  · unfold alpha
    rw [hb]
    ring
  · have hs : 0 ≤ sqDev xs := by
      apply List.sum_nonneg
      intro x hx
      simp only [List.mem_map] at hx
      obtain ⟨a, _, rfl⟩ := hx
      positivity
    have hsd : sqDev xs ≠ 0 := by
      intro h0
      apply h
      unfold sampleCov
      rw [hzip, h0, zero_div]
    unfold r_squared pearson
    rw [hzip, Real.mul_self_sqrt hs, div_self hsd, one_pow]

/-- Witness for C9 on the concrete series `[1/100, 1/50, 3/100]`, whose
sample variance is `1/10000 ≠ 0`. -/
theorem C9_identical_series_witness :
    sampleCov [(1 : ℝ)/100, 1/50, 3/100] [(1 : ℝ)/100, 1/50, 3/100] ≠ 0 ∧
    (beta [(1 : ℝ)/100, 1/50, 3/100] [(1 : ℝ)/100, 1/50, 3/100] = 1 ∧
     alpha [(1 : ℝ)/100, 1/50, 3/100] [(1 : ℝ)/100, 1/50, 3/100] 252 = 0 ∧
     r_squared [(1 : ℝ)/100, 1/50, 3/100] [(1 : ℝ)/100, 1/50, 3/100] = 1) := by
  have h : sampleCov [(1 : ℝ)/100, 1/50, 3/100] [(1 : ℝ)/100, 1/50, 3/100] ≠ 0 := by
    unfold sampleCov mean
    norm_num
  exact ⟨h, C9_identical_series [(1 : ℝ)/100, 1/50, 3/100] 252 h⟩

/-- Claim C10: without aggregation, `win_rate` is the count of strictly
positive returns over the count of nonzero returns; a series of only positive
and zero returns (with at least one positive) has `win_rate` exactly 1; and
`risk_of_ruin` and `kelly_criterion` consume this same zero-excluding rate. -/
theorem C10_win_rate_zero_excluding (xs : List ℝ)
    (h1 : ∀ x ∈ xs, 0 ≤ x) (h2 : ∃ x ∈ xs, 0 < x) :
    win_rate xs = (xs.countP (fun x => decide (0 < x)) : ℝ) /
      (xs.countP (fun x => decide (x ≠ 0)) : ℝ) ∧
    win_rate xs = 1 ∧
    risk_of_ruin xs = ((1 - win_rate xs) / (1 + win_rate xs)) ^ xs.length ∧
    kelly_criterion xs =
      (payoff_ratio xs * win_rate xs - (1 - win_rate xs)) / payoff_ratio xs := by
  have hfilter : xs.filter (fun x => decide (x ≠ 0)) = xs.filter (fun x => decide (0 < x)) := by
    apply List.filter_congr
    intro x hx
    have hx0 := h1 x hx
    rw [decide_eq_decide]
    exact ⟨fun hne => lt_of_le_of_ne hx0 (Ne.symm hne), fun hlt => ne_of_gt hlt⟩
  have hlen : ((xs.filter (fun x => decide (0 < x))).length : ℝ) ≠ 0 := by
    obtain ⟨x, hx, hxpos⟩ := h2
    have hmem : x ∈ xs.filter (fun x => decide (0 < x)) :=
      List.mem_filter.mpr ⟨hx, by simpa using hxpos⟩
    have hp : 0 < (xs.filter (fun x => decide (0 < x))).length :=
      List.length_pos.mpr (List.ne_nil_of_mem hmem)
    exact ne_of_gt (by exact_mod_cast hp)
  refine ⟨?_, ?_, rfl, rfl⟩
  · simp [win_rate, List.countP_eq_length_filter]
  · unfold win_rate
    rw [hfilter]
    exact div_self hlen

/-- Witness for C10 on the concrete series `[1/100, 0, 1/50]`, which has a
zero return and two positive returns. -/
theorem C10_win_rate_zero_excluding_witness :
    ((∀ x ∈ [(1 : ℝ)/100, 0, 1/50], 0 ≤ x) ∧ ∃ x ∈ [(1 : ℝ)/100, 0, 1/50], 0 < x) ∧
    (win_rate [(1 : ℝ)/100, 0, 1/50] =
      (([(1 : ℝ)/100, 0, 1/50].countP (fun x => decide (0 < x))) : ℝ) /
      (([(1 : ℝ)/100, 0, 1/50].countP (fun x => decide (x ≠ 0))) : ℝ) ∧
     win_rate [(1 : ℝ)/100, 0, 1/50] = 1 ∧
     risk_of_ruin [(1 : ℝ)/100, 0, 1/50] =
      ((1 - win_rate [(1 : ℝ)/100, 0, 1/50]) / (1 + win_rate [(1 : ℝ)/100, 0, 1/50])) ^
        ([(1 : ℝ)/100, 0, 1/50]).length ∧
     kelly_criterion [(1 : ℝ)/100, 0, 1/50] =
      (payoff_ratio [(1 : ℝ)/100, 0, 1/50] * win_rate [(1 : ℝ)/100, 0, 1/50] -
        (1 - win_rate [(1 : ℝ)/100, 0, 1/50])) / payoff_ratio [(1 : ℝ)/100, 0, 1/50]) := by
  have h1 : ∀ x ∈ [(1 : ℝ)/100, 0, 1/50], 0 ≤ x := by
    intro x hx
    simp only [List.mem_cons, List.not_mem_nil, or_false] at hx
    rcases hx with h | h | h <;> rw [h] <;> norm_num
  have h2 : ∃ x ∈ [(1 : ℝ)/100, 0, 1/50], 0 < x := ⟨1/100, by simp, by norm_num⟩
  exact ⟨⟨h1, h2⟩, C10_win_rate_zero_excluding [(1 : ℝ)/100, 0, 1/50] h1 h2⟩

/-- Summing the squares of the strictly negative entries only is the same as
summing `min(e, 0)²` over every entry. -/
lemma sum_sq_filter_neg (E : List ℝ) :
    ((E.filter (fun e => decide (e < 0))).map (fun e => e ^ 2)).sum =
    (E.map (fun e => (min e 0) ^ 2)).sum := by
  induction E with
  | nil => simp
  | cons a t ih =>
    by_cases ha : a < 0
    · simp [List.filter_cons, ha, ih, min_eq_left (le_of_lt ha)]
    · have h0 : min a 0 = 0 := min_eq_right (le_of_not_lt ha)
      simp [List.filter_cons, ha, ih, h0]

/-- Claim C1: with `smart = false`, the denominator of `sortino` is the
downside deviation `sqrt(mean(min(excess, 0)²))` — the squared negative
excess returns averaged over the full sample count — and the result is
`mean(excess) / downside`, times `sqrt(periods)` exactly when annualized. -/
theorem C1_sortino_downside (returns : List ℝ) (rf p : ℝ) (ann : Bool) :
    sortino returns rf p ann false =
      (mean (to_excess_returns returns rf p) /
        Real.sqrt (((to_excess_returns returns rf p).map (fun e => (min e 0) ^ 2)).sum /
          ((to_excess_returns returns rf p).length : ℝ))) *
      (if ann then Real.sqrt p else 1) := by
  simp only [sortino, sum_sq_filter_neg, Bool.false_eq_true, if_false]
  cases ann <;> simp

/-- Rewrites a sum over the Python range `range(1, m + 1)` (modelled with
`List.range'`) as a `Finset.Ico` sum. -/
lemma sum_map_range_one (f : ℕ → ℝ) (m : ℕ) :
    ((List.range' 1 m).map f).sum = ∑ k in Finset.Ico 1 (m + 1), f k := by
  induction m with
  | zero => simp
  | succ n ih =>
    rw [List.range'_concat, List.map_append, List.sum_append,
      Finset.sum_Ico_succ_top (by omega)]
    simp [ih, add_comm]

/-- Claim C2 amended: `autocorr_penalty` computes
`sqrt(1 + 2 Σ_{k=1}^{n-1} ((n-k)/n) ρ̂^k)` where `ρ̂` is the ABSOLUTE VALUE of
the lag-1 Pearson autocorrelation coefficient (the code applies `np.abs`), not
the signed coefficient. -/
theorem C2_amended_abs_rho (xs : List ℝ) :
    autocorr_penalty xs = Real.sqrt (1 + 2 * ∑ k in Finset.Ico 1 xs.length,
      (((xs.length : ℝ) - (k : ℝ)) / (xs.length : ℝ)) *
        |pearson (xs.take (xs.length - 1)) (xs.drop 1)| ^ k) := by
  simp only [autocorr_penalty]
  rw [sum_map_range_one]
  rcases Nat.eq_zero_or_pos xs.length with h | h
  · rw [h]
    simp
  · have hn : xs.length - 1 + 1 = xs.length := by omega
    rw [hn]

/-- The lag-1 Pearson correlation of the alternating series `[1, -1, 1]`. -/
lemma pearson_alternating : pearson [(1 : ℝ), -1] [(-1 : ℝ), 1] = -1 := by
  have h2 : Real.sqrt 2 * Real.sqrt 2 = 2 := Real.mul_self_sqrt (by norm_num)
  have ha : sqDev [(1 : ℝ), -1] = 2 := by
    simp [sqDev, mean]
    norm_num
  have hb : sqDev [(-1 : ℝ), 1] = 2 := by
    simp [sqDev, mean]
    norm_num
  have hz : (List.zipWith
      (fun x y => (x - mean [(1 : ℝ), -1]) * (y - mean [(-1 : ℝ), 1]))
      [(1 : ℝ), -1] [(-1 : ℝ), 1]).sum = -2 := by
    simp [mean]
    norm_num
  unfold pearson
  rw [ha, hb, hz, h2]
  norm_num

/-- Refutation of claim C2: on the alternating series `[1, -1, 1]` the lag-1
autocorrelation is `-1`; the code returns `sqrt 3` (using `|ρ| = 1`), while
the claimed formula with the signed `ρ` gives `sqrt (1/3)`. -/
theorem C2_counterexample :
    autocorr_penalty [(1 : ℝ), -1, 1] ≠
      Real.sqrt (1 + 2 * ∑ k in Finset.Ico 1 ([(1 : ℝ), -1, 1]).length,
        ((((([(1 : ℝ), -1, 1]).length : ℝ)) - (k : ℝ)) / ((([(1 : ℝ), -1, 1]).length : ℝ))) *
          (pearson (([(1 : ℝ), -1, 1]).take (([(1 : ℝ), -1, 1]).length - 1))
                   (([(1 : ℝ), -1, 1]).drop 1)) ^ k) := by
  have htake : ([(1 : ℝ), -1, 1]).take (([(1 : ℝ), -1, 1]).length - 1) = [(1 : ℝ), -1] := rfl
  have hdrop : ([(1 : ℝ), -1, 1]).drop 1 = [(-1 : ℝ), 1] := rfl
  have hcode : autocorr_penalty [(1 : ℝ), -1, 1] = Real.sqrt 3 := by
    simp only [autocorr_penalty, htake, hdrop, pearson_alternating]
    norm_num [List.range']
  have hclaim : Real.sqrt (1 + 2 * ∑ k in Finset.Ico 1 ([(1 : ℝ), -1, 1]).length,
        ((((([(1 : ℝ), -1, 1]).length : ℝ)) - (k : ℝ)) / ((([(1 : ℝ), -1, 1]).length : ℝ))) *
          (pearson (([(1 : ℝ), -1, 1]).take (([(1 : ℝ), -1, 1]).length - 1))
                   (([(1 : ℝ), -1, 1]).drop 1)) ^ k) = Real.sqrt (1/3) := by
    rw [htake, hdrop, pearson_alternating]
    norm_num [Finset.sum_Ico_eq_sum_range]
  rw [hcode, hclaim]
  have hlt : Real.sqrt (1/3) < Real.sqrt 3 := Real.sqrt_lt_sqrt (by norm_num) (by norm_num)
  exact ne_of_gt hlt

/-- Evaluation of `cagr` on the two-observation constant series `[0.01, 0.01]`
with the default `periods = 252`: the exponent `1 / years` is exactly 252. -/
lemma cagr_const_two_eval :
    cagr [(1 : ℝ)/100, 1/100] true 252 = ((10201 : ℝ)/10000) ^ (252 : ℕ) - 1 := by
  have htot : total_return [(1 : ℝ)/100, 1/100] + 1 = 10201/10000 := by
    simp [total_return]
    norm_num
  have habs : |(10201 : ℝ)/10000| = 10201/10000 := by norm_num
  have hc0 : cagr [(1 : ℝ)/100, 1/100] true 252 =
      ((10201 : ℝ)/10000) ^ (((252 : ℕ) : ℝ)) - 1 := by
    simp only [cagr, if_true]
    rw [htot, habs]
    norm_num
  rw [hc0, Real.rpow_natCast]

/-- Refutation of claim C4: the constant daily series `[0.01, 0.01]` with the
default `periods = 252` has `cagr = 1.01^504 - 1 > 5`, which is more than `1`
away from the constant return `c = 0.01` — far outside floating tolerance. -/
theorem C4_counterexample : 1 < cagr [(1 : ℝ)/100, 1/100] true 252 - 1/100 := by
  rw [cagr_const_two_eval]
  have hbern : 1 + (252 : ℕ) * ((201 : ℝ)/10000) ≤ (1 + (201 : ℝ)/10000) ^ (252 : ℕ) :=
    one_add_mul_le_pow (by norm_num) 252
  have hval : (6 : ℝ) ≤ ((10201 : ℝ)/10000) ^ (252 : ℕ) := by
    calc (6 : ℝ) ≤ 1 + (252 : ℕ) * ((201 : ℝ)/10000) := by norm_num
    _ ≤ (1 + (201 : ℝ)/10000) ^ (252 : ℕ) := hbern
    _ = ((10201 : ℝ)/10000) ^ (252 : ℕ) := by norm_num
  linarith

/-- Claim C4 amended: on a constant series of `n ≥ 2` returns equal to `c`,
`cagr` with `compounded = true` returns `|c + 1| ^ (n·periods/(n-1)) - 1`,
which is the per-period return `c` only in degenerate cases, not in
general. -/
theorem C4_amended_constant_series (c : ℝ) (n : ℕ) (p : ℝ) (h : 2 ≤ n) :
    cagr (List.replicate n c) true p = |c + 1| ^ (((n : ℝ) * p) / ((n : ℝ) - 1)) - 1 := by
  have htot : total_return (List.replicate n c) + 1 = (c + 1) ^ n := by
    unfold total_return
    rw [List.map_replicate, List.prod_replicate]
    ring
  simp only [cagr, if_true, List.length_replicate]
  rw [htot, abs_pow, one_div_div, ← Real.rpow_natCast |c + 1| n,
    ← Real.rpow_mul (abs_nonneg _)]
  rw [show ((n : ℝ)) * (p / ((n : ℝ) - 1)) = ((n : ℝ) * p) / ((n : ℝ) - 1) by ring]

/-- Witness for the amended C4 at `c = 0.01`, `n = 2`, `periods = 252`. -/
theorem C4_amended_constant_series_witness :
    2 ≤ 2 ∧ cagr (List.replicate 2 ((1 : ℝ)/100)) true 252 =
      |(1 : ℝ)/100 + 1| ^ ((((2 : ℕ) : ℝ) * 252) / (((2 : ℕ) : ℝ) - 1)) - 1 :=
  ⟨by norm_num, C4_amended_constant_series ((1 : ℝ)/100) 2 252 (by norm_num)⟩

/-- IEEE-754: NaN absorbs multiplication. -/
lemma fmul_nan (x : F) : fmul x F.nan = F.nan := by cases x <;> rfl

/-- Unfolding equation of `fdiv` on two finite operands. -/
lemma fdiv_fin_fin (a b : ℝ) :
    fdiv (F.fin a) (F.fin b) = if b = 0 then sgnCase a F.inf F.neginf else F.fin (a / b) := rfl

/-- Unfolding equation of `fmul` on `inf` times a finite operand. -/
lemma fmul_inf_fin (b : ℝ) : fmul F.inf (F.fin b) = sgnCase b F.inf F.neginf := rfl

/-- Refutation of claim C6: on the constant series `[0.01, 0.01, 0.01]` with
`rf = 0` the excess-return standard deviation is exactly zero and the mean is
positive, and `sharpe` returns positive infinity — not a missing value. -/
theorem C6_counterexample :
    sharpe [(1 : ℝ)/100, 1/100, 1/100] 0 252 true false = F.inf := by
  have hE : to_excess_returns [(1 : ℝ)/100, 1/100, 1/100] 0 252 =
      [(1 : ℝ)/100, 1/100, 1/100] := by
    simp [to_excess_returns, deannualize, Real.one_rpow]
  have hmean : mean [(1 : ℝ)/100, 1/100, 1/100] = 1/100 := by
    simp [mean]
    norm_num
  have hsq : sqDev [(1 : ℝ)/100, 1/100, 1/100] = 0 := by
    simp only [sqDev, hmean, List.map_cons, List.map_nil, List.sum_cons, List.sum_nil]
    norm_num
  have hstd : stdR [(1 : ℝ)/100, 1/100, 1/100] = 0 := by
    unfold stdR
    rw [hsq, zero_div, Real.sqrt_zero]
  simp only [sharpe, hE, Bool.false_eq_true, if_false, if_true]
  rw [show meanF [(1 : ℝ)/100, 1/100, 1/100] = F.fin (1/100) by
    unfold meanF
    rw [if_neg (by simp), hmean]]
  rw [show stdF [(1 : ℝ)/100, 1/100, 1/100] = F.fin 0 by
    unfold stdF
    rw [if_neg (by simp), hstd]]
  rw [fdiv_fin_fin, if_pos rfl]
  unfold sgnCase
  rw [if_pos (by norm_num : (0 : ℝ) < 1/100)]
  rw [show npSqrt 252 = F.fin (Real.sqrt 252) by
    unfold npSqrt
    rw [if_neg (by norm_num : ¬ (252 : ℝ) < 0)]]
  rw [fmul_inf_fin]
  unfold sgnCase
  rw [if_pos (Real.sqrt_pos.mpr (by norm_num : (0 : ℝ) < 252))]

/-- Claim C6 amended: when a ratio's denominator is exactly zero and its
numerator is strictly positive, `sharpe`, `omega` and `calmar` return
positive infinity (IEEE division), not a missing value and not an
exception. -/
theorem C6_amended_zero_denominator (xs ys : List ℝ) (rf req p : ℝ)
    (h2 : 2 ≤ (to_excess_returns xs rf p).length)
    (hstd : stdR (to_excess_returns xs rf p) = 0)
    (hmean : 0 < mean (to_excess_returns xs rf p))
    (hp : 0 < p)
    (hneg : ((to_excess_returns xs req p).filter (fun e => decide (e < 0))).sum = 0)
    (hpos : 0 < ((to_excess_returns xs req p).filter (fun e => decide (0 < e))).sum)
    (hdd : max_drawdown ys = 0)
    (hcagr : 0 < cagr ys true 252) :
    sharpe xs rf p true false = F.inf ∧ omega xs req p = F.inf ∧ calmar ys = F.inf := by
  refine ⟨?_, ?_, ?_⟩
  · simp only [sharpe, Bool.false_eq_true, if_false, if_true]
    rw [show stdF (to_excess_returns xs rf p) = F.fin 0 by
      unfold stdF
      rw [if_neg (by omega), hstd]]
    rw [show meanF (to_excess_returns xs rf p) = F.fin (mean (to_excess_returns xs rf p)) by
      unfold meanF
      rw [if_neg (by omega)]]
    rw [fdiv_fin_fin, if_pos rfl]
    unfold sgnCase
    rw [if_pos hmean]
    rw [show npSqrt p = F.fin (Real.sqrt p) by
      unfold npSqrt
      rw [if_neg (not_lt.mpr (le_of_lt hp))]]
    rw [fmul_inf_fin]
    unfold sgnCase
    rw [if_pos (Real.sqrt_pos.mpr hp)]
  · simp only [omega]
    rw [hneg, abs_zero, fdiv_fin_fin, if_pos rfl]
    unfold sgnCase
    rw [if_pos hpos]
  · unfold calmar
    rw [hdd, abs_zero, fdiv_fin_fin, if_pos rfl]
    unfold sgnCase
    rw [if_pos hcagr]

/-- Witness for the amended C6 at the constant series `[0.01, 0.01, 0.01]`
with `rf = required_returns = 0` and `periods = 252`, and the rising series
`[0.01, 0.01]` whose drawdown is identically zero. -/
theorem C6_amended_zero_denominator_witness :
    (2 ≤ (to_excess_returns [(1 : ℝ)/100, 1/100, 1/100] 0 252).length ∧
     stdR (to_excess_returns [(1 : ℝ)/100, 1/100, 1/100] 0 252) = 0 ∧
     0 < mean (to_excess_returns [(1 : ℝ)/100, 1/100, 1/100] 0 252) ∧
     (0 : ℝ) < 252 ∧
     ((to_excess_returns [(1 : ℝ)/100, 1/100, 1/100] 0 252).filter
        (fun e => decide (e < 0))).sum = 0 ∧
     0 < ((to_excess_returns [(1 : ℝ)/100, 1/100, 1/100] 0 252).filter
        (fun e => decide (0 < e))).sum ∧
     max_drawdown [(1 : ℝ)/100, 1/100] = 0 ∧
     0 < cagr [(1 : ℝ)/100, 1/100] true 252) ∧
    (sharpe [(1 : ℝ)/100, 1/100, 1/100] 0 252 true false = F.inf ∧
     omega [(1 : ℝ)/100, 1/100, 1/100] 0 252 = F.inf ∧
     calmar [(1 : ℝ)/100, 1/100] = F.inf) := by
  have hE : to_excess_returns [(1 : ℝ)/100, 1/100, 1/100] 0 252 =
      [(1 : ℝ)/100, 1/100, 1/100] := by
    simp [to_excess_returns, deannualize, Real.one_rpow]
  have hmean : mean [(1 : ℝ)/100, 1/100, 1/100] = 1/100 := by
    simp [mean]
    norm_num
  have h2 : 2 ≤ (to_excess_returns [(1 : ℝ)/100, 1/100, 1/100] 0 252).length := by
    rw [hE]
    simp
  have hsq : sqDev [(1 : ℝ)/100, 1/100, 1/100] = 0 := by
    simp only [sqDev, hmean, List.map_cons, List.map_nil, List.sum_cons, List.sum_nil]
    norm_num
  have hstd : stdR (to_excess_returns [(1 : ℝ)/100, 1/100, 1/100] 0 252) = 0 := by
    rw [hE]
    unfold stdR
    rw [hsq, zero_div, Real.sqrt_zero]
  have hm : 0 < mean (to_excess_returns [(1 : ℝ)/100, 1/100, 1/100] 0 252) := by
    rw [hE, hmean]
    norm_num
  have hneg : ((to_excess_returns [(1 : ℝ)/100, 1/100, 1/100] 0 252).filter
      (fun e => decide (e < 0))).sum = 0 := by
    rw [hE]
    have : ([(1 : ℝ)/100, 1/100, 1/100].filter (fun e => decide (e < 0))) = [] := by
      simp only [List.filter_cons, List.filter_nil, decide_eq_true_eq]
      rw [if_neg (by norm_num), if_neg (by norm_num), if_neg (by norm_num)]
    rw [this, List.sum_nil]
  have hpos : 0 < ((to_excess_returns [(1 : ℝ)/100, 1/100, 1/100] 0 252).filter
      (fun e => decide (0 < e))).sum := by
    rw [hE]
    have : ([(1 : ℝ)/100, 1/100, 1/100].filter (fun e => decide (0 < e))) =
        [(1 : ℝ)/100, 1/100, 1/100] := by
      simp only [List.filter_cons, List.filter_nil, decide_eq_true_eq]
      rw [if_pos (by norm_num), if_pos (by norm_num), if_pos (by norm_num)]
    rw [this]
    simp only [List.sum_cons, List.sum_nil]
    norm_num
  have hc0 : cumCurve [(1 : ℝ)/100, 1/100] 0 = 1/100 := by
    norm_num [cumCurve]
  have hc1 : cumCurve [(1 : ℝ)/100, 1/100] 1 = 201/10000 := by
    norm_num [cumCurve]
  have hpk0 : runPeak [(1 : ℝ)/100, 1/100] 0 = 1/100 := by
    simp only [runPeak, List.range_succ, List.range_zero, List.nil_append,
      List.map_cons, List.map_nil, List.foldr_cons, List.foldr_nil, hc0]
    exact max_self _
  have hpk1 : runPeak [(1 : ℝ)/100, 1/100] 1 = 201/10000 := by
    simp only [runPeak, List.range_succ, List.range_zero, List.nil_append,
      List.map_append, List.map_cons, List.map_nil, List.cons_append,
      List.foldr_cons, List.foldr_nil, hc0, hc1]
    rw [max_eq_left (by norm_num : (1 : ℝ)/100 ≤ 201/10000)]
    rw [max_eq_right (by norm_num : (1 : ℝ)/100 ≤ 201/10000)]
  have hdds : to_drawdown_series [(1 : ℝ)/100, 1/100] = [0, 0] := by
    simp only [to_drawdown_series, List.length_cons, List.length_nil,
      List.range_succ, List.range_zero, List.nil_append, List.map_append,
      List.map_cons, List.map_nil, List.cons_append, hpk0, hpk1, hc0, hc1]
    rw [if_neg (by norm_num : ¬ (1 : ℝ)/100 ≤ 0),
      if_neg (by norm_num : ¬ (201 : ℝ)/10000 ≤ 0)]
    norm_num
  have hdd : max_drawdown [(1 : ℝ)/100, 1/100] = 0 := by
    unfold max_drawdown
    rw [hdds]
    simp
  have hcagr : 0 < cagr [(1 : ℝ)/100, 1/100] true 252 := by
    rw [cagr_const_two_eval]
    have h1 : (1 : ℝ) < ((10201 : ℝ)/10000) ^ (252 : ℕ) :=
      one_lt_pow (by norm_num) (by norm_num)
    linarith
  exact ⟨⟨h2, hstd, hm, by norm_num, hneg, hpos, hdd, hcagr⟩,
    C6_amended_zero_denominator [(1 : ℝ)/100, 1/100, 1/100] [(1 : ℝ)/100, 1/100] 0 0 252
      h2 hstd hm (by norm_num) hneg hpos hdd hcagr⟩

/-- `scipy.stats.norm.ppf` is NaN strictly below quantile 0. -/
lemma normPpf_nan_of_neg (q mu sigma : ℝ) (h : q < 0) : normPpf q mu sigma = F.nan := by
  unfold normPpf
  split_ifs with h1 h2 h3 h4
  · rfl
  · rfl
  all_goals exact absurd (Or.inl h) h2

/-- Refutation of claim C8: `volatility` with the invalid parameter
`periods = -1` silently computes `std * np.sqrt(-1) = NaN` instead of
rejecting the call. -/
theorem C8_counterexample : volatility [(1 : ℝ)/100, 1/50] (-1) true = F.nan := by
  have hs : npSqrt (-1) = F.nan := by
    unfold npSqrt
    rw [if_pos (by norm_num : (-1 : ℝ) < 0)]
  simp only [volatility, if_true, hs, fmul_nan]

/-- Claim C8 amended: invalid parameters are not rejected at call time: with a
negative `periods`, `volatility` silently returns NaN (square root of a
negative), and with `confidence > 1`, `value_at_risk` silently returns NaN
(normal quantile outside `[0, 1]`); no error is raised and no clamping
occurs. -/
theorem C8_amended_no_rejection (xs : List ℝ) (p conf : ℝ) (hp : p < 0) (hc : 1 < conf) :
    volatility xs p true = F.nan ∧ value_at_risk xs conf = F.nan := by
  constructor
  · have hs : npSqrt p = F.nan := by
      unfold npSqrt
      rw [if_pos hp]
    simp only [volatility, if_true, hs, fmul_nan]
  · unfold value_at_risk
    cases hm : meanF xs <;> cases hs : stdF xs <;> try rfl
    exact normPpf_nan_of_neg _ _ _ (by linarith)

/-- Witness for the amended C8 at the concrete series `[0.01, 0.02]` with
`periods = -1` and `confidence = 2`. -/
theorem C8_amended_no_rejection_witness :
    ((-1 : ℝ) < 0 ∧ (1 : ℝ) < 2) ∧
    (volatility [(1 : ℝ)/100, 1/50] (-1) true = F.nan ∧
     value_at_risk [(1 : ℝ)/100, 1/50] 2 = F.nan) :=
  ⟨⟨by norm_num, by norm_num⟩,
    C8_amended_no_rejection [(1 : ℝ)/100, 1/50] (-1) 2 (by norm_num) (by norm_num)⟩

/-- Entry `i` of an elementwise combination of two series, when both series
have an entry there. -/
lemma zipWith_get?_eq {α β γ : Type} (f : α → β → γ) :
    ∀ (a : List α) (b : List β) (i : ℕ) (x : α) (y : β),
      a.get? i = some x → b.get? i = some y →
      (List.zipWith f a b).get? i = some (f x y) := by
  intro a
  induction a with
  | nil =>
    intro b i x y hx hy
    simp at hx
  | cons ha ta ih =>
    intro b i x y hx hy
    cases b with
    | nil => simp at hy
    | cons hb tb =>
      cases i with
      | zero =>
        simp only [List.get?_cons_zero, Option.some.injEq] at hx hy
        simp [List.zipWith_cons_cons, hx, hy]
      | succ n =>
        simp only [List.get?_cons_succ] at hx hy
        simpa [List.zipWith_cons_cons] using ih tb n x y hx hy

/-- Entry `i` of a rolling statistic: the window of the `W` most recent
observations when at least `W` are available, the missing value otherwise. -/
lemma rollingApply_get? (W : ℕ) (f : List ℝ → ℝ) (xs : List ℝ) (i : ℕ) (hi : i < xs.length) :
    (rollingApply W f xs).get? i =
      some (if W ≤ i + 1 then some (f ((xs.take (i + 1)).drop (i + 1 - W))) else none) := by
  unfold rollingApply
  rw [List.get?_map, List.get?_range hi]
  rfl

/-- Subtracting a constant from every entry shifts the sum by `n·c`. -/
lemma sum_map_sub_const (l : List ℝ) (c : ℝ) :
    (l.map (fun x => x - c)).sum = l.sum - l.length * c := by
  induction l with
  | nil => simp
  | cons a t ih =>
    simp only [List.map_cons, List.sum_cons, ih, List.length_cons]
    push_cast
    ring

/-- Subtracting a constant from every entry of a nonempty series shifts the
mean by that constant. -/
lemma mean_map_sub (l : List ℝ) (c : ℝ) (hl : l ≠ []) :
    mean (l.map (fun x => x - c)) = mean l - c := by
  have hpos : (0 : ℝ) < l.length := by exact_mod_cast List.length_pos.mpr hl
  unfold mean
  rw [List.length_map, sum_map_sub_const]
  field_simp

/-- The sample standard deviation is invariant under subtracting a constant
from every entry. -/
lemma stdR_map_sub (l : List ℝ) (c : ℝ) : stdR (l.map (fun x => x - c)) = stdR l := by
  rcases eq_or_ne l [] with rfl | hl
  · simp [stdR, sqDev]
  · unfold stdR
    rw [List.length_map]
    have hsq : sqDev (l.map (fun x => x - c)) = sqDev l := by
      unfold sqDev
      rw [mean_map_sub l c hl, List.map_map]
      have hfun : ((fun x => (x - (mean l - c)) ^ 2) ∘ fun x => x - c) =
          fun x : ℝ => (x - mean l) ^ 2 := by
        funext x
        simp only [Function.comp_apply]
        ring
      rw [hfun]
    rw [hsq]

/-- Taking a prefix commutes with forming excess returns. -/
lemma to_excess_returns_take (xs : List ℝ) (rf p : ℝ) (W : ℕ) :
    (to_excess_returns xs rf p).take W = to_excess_returns (xs.take W) rf p := by
  unfold to_excess_returns
  rw [List.map_take]

/-- Excess returns and raw returns have the same sample standard deviation
(the risk-free rate is subtracted as a constant). -/
lemma stdR_to_excess (xs : List ℝ) (rf p : ℝ) :
    stdR (to_excess_returns xs rf p) = stdR xs :=
  stdR_map_sub xs (deannualize rf p)

/-- Claim C5: a rolling statistic with window `W` is missing at each of the
first `W - 1` positions, and its value at index `W - 1` equals the
corresponding non-rolling statistic (`volatility`, `sharpe`) computed over
exactly the first `W` observations, with the sample (`n - 1` denominator)
standard deviation throughout. -/
theorem C5_rolling_window (xs : List ℝ) (rf ppy : ℝ) (W : ℕ)
    (hW : 2 ≤ W) (hWn : W ≤ xs.length) (hppy : 0 ≤ ppy)
    (hstd : stdR (xs.take W) ≠ 0) :
    (∀ i, i + 1 < W → i < xs.length →
      (rolling_volatility xs W ppy).get? i = some none ∧
      (rolling_sharpe xs rf W true ppy).get? i = some none) ∧
    (rolling_volatility xs W ppy).get? (W - 1) =
      some (some (stdR (xs.take W) * Real.sqrt ppy)) ∧
    volatility (xs.take W) ppy true = F.fin (stdR (xs.take W) * Real.sqrt ppy) ∧
    (rolling_sharpe xs rf W true ppy).get? (W - 1) =
      some (some (mean (to_excess_returns (xs.take W) rf ppy) /
        stdR (to_excess_returns (xs.take W) rf ppy) * Real.sqrt ppy)) ∧
    sharpe (xs.take W) rf ppy true false =
      F.fin (mean (to_excess_returns (xs.take W) rf ppy) /
        stdR (to_excess_returns (xs.take W) rf ppy) * Real.sqrt ppy) := by
  have hElen : (to_excess_returns xs rf ppy).length = xs.length := List.length_map _ _
  have hW1 : W - 1 + 1 = W := by omega
  have hW1lt : W - 1 < xs.length := by omega
  have hwin : ∀ l : List ℝ, (l.take (W - 1 + 1)).drop (W - 1 + 1 - W) = l.take W := by
    intro l
    rw [hW1, Nat.sub_self, List.drop_zero]
  have htklen : (xs.take W).length = W := by
    rw [List.length_take]
    omega
  have hstdE : stdR (to_excess_returns (xs.take W) rf ppy) = stdR (xs.take W) :=
    stdR_to_excess _ _ _
  refine ⟨?_, ?_, ?_, ?_, ?_⟩
  · intro i h1 h2
    constructor
    · unfold rolling_volatility
      rw [List.get?_map, rollingApply_get? W stdR xs i h2, if_neg (by omega)]
      rfl
    · simp only [rolling_sharpe, if_true]
      rw [List.get?_map]
      rw [zipWith_get?_eq _ _ _ _ _ _
        (by rw [rollingApply_get? W mean _ i (by omega), if_neg (by omega)])
        (by rw [rollingApply_get? W stdR xs i h2, if_neg (by omega)])]
      rfl
  · unfold rolling_volatility
    rw [List.get?_map, rollingApply_get? W stdR xs (W - 1) hW1lt, if_pos (by omega), hwin]
    rfl
  · simp only [volatility, if_true]
    rw [show stdF (xs.take W) = F.fin (stdR (xs.take W)) by
      unfold stdF
      rw [if_neg (by omega)]]
    rw [show npSqrt ppy = F.fin (Real.sqrt ppy) by
      unfold npSqrt
      rw [if_neg (not_lt.mpr hppy)]]
    rfl
  · simp only [rolling_sharpe, if_true]
    rw [List.get?_map]
    rw [zipWith_get?_eq _ _ _ _ _ _
      (by rw [rollingApply_get? W mean _ (W - 1) (by omega), if_pos (by omega), hwin])
      (by rw [rollingApply_get? W stdR xs (W - 1) hW1lt, if_pos (by omega), hwin])]
    rw [to_excess_returns_take, hstdE]
    rfl
  · simp only [sharpe, Bool.false_eq_true, if_false, if_true]
    have hEtklen : (to_excess_returns (xs.take W) rf ppy).length = W :=
      (List.length_map _ _).trans htklen
    rw [show meanF (to_excess_returns (xs.take W) rf ppy) =
        F.fin (mean (to_excess_returns (xs.take W) rf ppy)) by
      unfold meanF
      rw [if_neg (by omega)]]
    rw [show stdF (to_excess_returns (xs.take W) rf ppy) =
        F.fin (stdR (to_excess_returns (xs.take W) rf ppy)) by
      unfold stdF
      rw [if_neg (by omega)]]
    rw [fdiv_fin_fin, if_neg (by rw [hstdE]; exact hstd)]
    rw [show npSqrt ppy = F.fin (Real.sqrt ppy) by
      unfold npSqrt
      rw [if_neg (not_lt.mpr hppy)]]
    rfl

/-- Witness for C5 on the concrete series `[0.01, 0.03, 0.02]` with window
`W = 2`, `rf = 0`, `periods_per_year = 252`. -/
theorem C5_rolling_window_witness :
    (2 ≤ 2 ∧ 2 ≤ ([(1 : ℝ)/100, 3/100, 1/50]).length ∧ (0 : ℝ) ≤ 252 ∧
      stdR (([(1 : ℝ)/100, 3/100, 1/50]).take 2) ≠ 0) ∧
    ((∀ i, i + 1 < 2 → i < ([(1 : ℝ)/100, 3/100, 1/50]).length →
      (rolling_volatility [(1 : ℝ)/100, 3/100, 1/50] 2 252).get? i = some none ∧
      (rolling_sharpe [(1 : ℝ)/100, 3/100, 1/50] 0 2 true 252).get? i = some none) ∧
    (rolling_volatility [(1 : ℝ)/100, 3/100, 1/50] 2 252).get? (2 - 1) =
      some (some (stdR (([(1 : ℝ)/100, 3/100, 1/50]).take 2) * Real.sqrt 252)) ∧
    volatility (([(1 : ℝ)/100, 3/100, 1/50]).take 2) 252 true =
      F.fin (stdR (([(1 : ℝ)/100, 3/100, 1/50]).take 2) * Real.sqrt 252) ∧
    (rolling_sharpe [(1 : ℝ)/100, 3/100, 1/50] 0 2 true 252).get? (2 - 1) =
      some (some (mean (to_excess_returns (([(1 : ℝ)/100, 3/100, 1/50]).take 2) 0 252) /
        stdR (to_excess_returns (([(1 : ℝ)/100, 3/100, 1/50]).take 2) 0 252) *
          Real.sqrt 252)) ∧
    sharpe (([(1 : ℝ)/100, 3/100, 1/50]).take 2) 0 252 true false =
      F.fin (mean (to_excess_returns (([(1 : ℝ)/100, 3/100, 1/50]).take 2) 0 252) /
        stdR (to_excess_returns (([(1 : ℝ)/100, 3/100, 1/50]).take 2) 0 252) *
          Real.sqrt 252)) := by
  have hm2 : mean [(1 : ℝ)/100, 3/100] = 2/100 := by
    simp [mean]
    norm_num
  have hsq2 : sqDev [(1 : ℝ)/100, 3/100] = 2/10000 := by
    simp only [sqDev, hm2, List.map_cons, List.map_nil, List.sum_cons, List.sum_nil]
    norm_num
  have hstd : stdR (([(1 : ℝ)/100, 3/100, 1/50]).take 2) ≠ 0 := by
    have htk : ([(1 : ℝ)/100, 3/100, 1/50]).take 2 = [(1 : ℝ)/100, 3/100] := rfl
    rw [htk]
    unfold stdR
    rw [hsq2, Real.sqrt_ne_zero']
    norm_num
  exact ⟨⟨by norm_num, by simp, by norm_num, hstd⟩,
    C5_rolling_window [(1 : ℝ)/100, 3/100, 1/50] 0 252 2 (by norm_num) (by simp)
      (by norm_num) hstd⟩

end Zenfin
